import Mathlib

/-!
Verification of `scripts/policy_lint.py` (post-incident-proofs policy linter).

The decoded YAML document is modelled as a dynamic value (`Yaml`), and the
two validators `validate_policy_structure` / `validate_policy_content` plus
the post-decode part of `lint_policy_file` are embedded below.  Python
operations that can raise (`key in policy` on a non-container,
`policy[key]` on a non-mapping or for a missing key) are modelled in the
`Except Unit` monad: `Except.error ()` stands for a raised exception
(`TypeError` / `KeyError`), which in `lint_policy_file` is caught by the
generic `except Exception` handler.
-/

namespace PolicyLint

/-- Dynamic value produced by `yaml.safe_load`: mapping, sequence, string,
number, boolean or null. Mapping keys may themselves be arbitrary values. -/
inductive Yaml where
  | null
  | bool (b : Bool)
  | int (n : Int)
  | str (s : String)
  | seq (xs : List Yaml)
  | map (kvs : List (Yaml × Yaml))

/-- The one-character string containing a single quote. -/
def sq : String := "\x27"

/-- Python equality of a dynamic value against a string literal: only an
equal string compares equal (every comparison in the linter has a string
literal on one side, so this specialisation is faithful). -/
def strKeyEq : Yaml → String → Bool
  | .str s, k => s == k
  | _, _ => false

/-- Lookup of string key `k` in a decoded mapping (Python dict lookup;
decoded dicts have distinct keys, so first match is the match). -/
def mapLookupStr (kvs : List (Yaml × Yaml)) (k : String) : Option Yaml :=
  (kvs.find? (fun kv => strKeyEq kv.1 k)).map (fun kv => kv.2)

/-- The needle is an initial segment of the haystack (character lists). -/
def charsPre : List Char → List Char → Bool
  | [], _ => true
  | _ :: _, [] => false
  | c :: cs, d :: ds => c == d && charsPre cs ds

/-- The needle occurs contiguously somewhere in the haystack. -/
def charsSub (needle : List Char) : List Char → Bool
  | [] => charsPre needle []
  | d :: ds => charsPre needle (d :: ds) || charsSub needle ds

/-- Python substring test `needle in haystack` on strings. -/
def pySubstr (needle haystack : String) : Bool :=
  charsSub needle.data haystack.data

/-- Python `k in container` for a string literal `k`: key membership for a
dict, element membership for a list, substring test for a string, and
`TypeError` for null / bool / number. -/
def pyContains (container : Yaml) (k : String) : Except Unit Bool :=
  match container with
  | .map kvs => .ok (mapLookupStr kvs k).isSome
  | .seq xs => .ok (xs.any (fun x => strKeyEq x k))
  | .str s => .ok (pySubstr k s)
  | _ => .error ()

/-- Python `container[k]` for a string literal `k`: dict lookup (raising
`KeyError` when absent), and `TypeError` for every non-dict value (list and
string subscripts demand integer indices). -/
def pyGetItem (container : Yaml) (k : String) : Except Unit Yaml :=
  match container with
  | .map kvs =>
      match mapLookupStr kvs k with
      | some v => .ok v
      | none => .error ()
  | _ => .error ()

mutual

/-- Python `repr` of a decoded value (containers render their elements with
`repr`, as `str` of a container does in Python; string escaping inside
`repr` of a string is not reproduced, no claim depends on it). -/
def pyRepr : Yaml → String
  | .null => "None"
  | .bool b => cond b "True" "False"
  | .int n => toString n
  | .str s => sq ++ s ++ sq
  | .seq xs => "[" ++ String.intercalate ", " (pyReprList xs) ++ "]"
  | .map kvs => "\x7b" ++ String.intercalate ", " (pyReprPairs kvs) ++ "\x7d"

/-- Python repr of the elements of a list. -/
def pyReprList : List Yaml → List String
  | [] => []
  | x :: xs => pyRepr x :: pyReprList xs

/-- Python repr of the key-value entries of a dict. -/
def pyReprPairs : List (Yaml × Yaml) → List String
  | [] => []
  | (k, v) :: kvs => (pyRepr k ++ ": " ++ pyRepr v) :: pyReprPairs kvs

end

/-- Python `str` of a decoded value, as used by the f-strings in the error
messages: identity on strings, `repr`-like otherwise. -/
def pyStr : Yaml → String
  | .str s => s
  | v => pyRepr v

/-- Every error message has the shape `f"\x7bfilename\x7d: ..."`. -/
def mkErr (filename body : String) : String := filename ++ ": " ++ body

/-- Body of the missing-required-key message (line 25). -/
def missingKeyBody (key : String) : String :=
  "Missing required key " ++ (sq ++ (key ++ sq))

/-- Body of the line-29 message. -/
def nameStrBody : String := "\x27name\x27 must be a string"

/-- Body of the line-33 message. -/
def versionStrBody : String := "\x27version\x27 must be a string"

/-- Body of the line-38 message. -/
def rulesListBody : String := "\x27rules\x27 must be a list"

/-- Common prefix `Rule \x7bi\x7d ` of the per-rule messages. -/
def ruleBody (i : Nat) (rest : String) : String :=
  "Rule " ++ (toString i ++ (" " ++ rest))

/-- Body of `Rule \x7bi\x7d must be a dictionary` (line 42). -/
def ruleDictBody (i : Nat) : String := ruleBody i "must be a dictionary"

/-- Body of the rule-missing-field message (lines 46, 49, 52). -/
def ruleMissingBody (i : Nat) (f : String) : String :=
  ruleBody i ("missing " ++ (sq ++ (f ++ (sq ++ " field"))))

/-- Body of the invalid-severity message (line 55). -/
def ruleInvalidSevBody (i : Nat) (v : Yaml) : String :=
  ruleBody i ("invalid severity " ++ (sq ++ (pyStr v ++ sq)))

/-- Body of the line-67 message. -/
def emptyBody : String := "Policy file is empty"

/-- Body of the line-72 message. -/
def notObjBody : String := "Policy must be a YAML object"

/-- Body of the line-79 message. -/
def invalidTypeBody (v : Yaml) : String :=
  "Invalid policy type " ++ (sq ++ (pyStr v ++ sq))

/-- Body of the line-93 message. -/
def emptyInvalidBody : String := "Empty or invalid YAML file"

/-- Body of the line-108 message; the Python text appends the text of the
exception itself, which is not modelled. -/
def unexpectedBody : String := "Unexpected error"

def Yaml.isStr : Yaml → Bool
  | .str _ => true
  | _ => false

def Yaml.isMap : Yaml → Bool
  | .map _ => true
  | _ => false

/-- The `required_keys` list of line 22. -/
def requiredKeys : List String := ["name", "version", "rules"]

/-- Lines 22-25: the loop over `required_keys`, unrolled (each iteration
performs one membership test, which raises for null / bool / number). -/
def reqKeyErrors (policy : Yaml) (filename : String) : Except Unit (List String) := do
  let b1 ← pyContains policy "name"
  let b2 ← pyContains policy "version"
  let b3 ← pyContains policy "rules"
  return (if b1 then [] else [mkErr filename (missingKeyBody "name")]) ++
    ((if b2 then [] else [mkErr filename (missingKeyBody "version")]) ++
      (if b3 then [] else [mkErr filename (missingKeyBody "rules")]))

/-- Lines 28-29: `if "name" in policy and not isinstance(policy["name"], str)`
(the subscript is only evaluated when the membership test succeeded). -/
def nameErrors (policy : Yaml) (filename : String) : Except Unit (List String) := do
  let b ← pyContains policy "name"
  if b then
    let v ← pyGetItem policy "name"
    return (if v.isStr then [] else [mkErr filename nameStrBody])
  else
    return []

/-- Lines 32-33, same shape as `nameErrors`. -/
def versionErrors (policy : Yaml) (filename : String) : Except Unit (List String) := do
  let b ← pyContains policy "version"
  if b then
    let v ← pyGetItem policy "version"
    return (if v.isStr then [] else [mkErr filename versionStrBody])
  else
    return []

/-- The `["low", "medium", "high", "critical"]` list of line 53. -/
def validSeverities : List String := ["low", "medium", "high", "critical"]

/-- Line 53: `rule["severity"] not in [...]`, negated — list membership of
an arbitrary value against four string literals. -/
def severityOk : Yaml → Bool
  | .str s => validSeverities.contains s
  | _ => false

/-- Lines 41-56: validation of a single rule at index `i`. -/
def ruleErrors (filename : String) (i : Nat) (rule : Yaml) : List String :=
  match rule with
  | .map rkvs =>
      (if (mapLookupStr rkvs "id").isSome then []
        else [mkErr filename (ruleMissingBody i "id")]) ++
      ((if (mapLookupStr rkvs "description").isSome then []
        else [mkErr filename (ruleMissingBody i "description")]) ++
        (match mapLookupStr rkvs "severity" with
        | none => [mkErr filename (ruleMissingBody i "severity")]
        | some v =>
            if severityOk v then [] else [mkErr filename (ruleInvalidSevBody i v)]))
  | _ => [mkErr filename (ruleDictBody i)]

/-- Line 40: `for i, rule in enumerate(policy["rules"])`, starting at
index `i`. -/
def rulesListErrors (filename : String) (i : Nat) : List Yaml → List String
  | [] => []
  | rule :: rest => ruleErrors filename i rule ++ rulesListErrors filename (i + 1) rest

/-- Lines 36-56: the `rules` section (membership test, the possibly raising
subscript, the list-type test, then the per-rule loop). -/
def rulesErrors (policy : Yaml) (filename : String) : Except Unit (List String) := do
  let b ← pyContains policy "rules"
  if b then
    let rv ← pyGetItem policy "rules"
    match rv with
    | .seq rules => return rulesListErrors filename 0 rules
    | _ => return [mkErr filename rulesListBody]
  else
    return []

/-- Lines 17-58: `validate_policy_structure`, the four blocks in source
order with their appended error lists. -/
def validate_policy_structure (policy : Yaml) (filename : String) :
    Except Unit (List String) := do
  let e1 ← reqKeyErrors policy filename
  let e2 ← nameErrors policy filename
  let e3 ← versionErrors policy filename
  let e4 ← rulesErrors policy filename
  return e1 ++ (e2 ++ (e3 ++ e4))

/-- Python truthiness test `not policy` of line 66: null, `False`, zero,
the empty string, the empty list and the empty dict are falsy. -/
def Yaml.isFalsy : Yaml → Bool
  | .null => true
  | .bool b => !b
  | .int n => n == 0
  | .str s => s == ""
  | .seq xs => xs.isEmpty
  | .map kvs => kvs.isEmpty

/-- The `valid_types` list of line 77. -/
def validTypes : List String := ["security", "compliance", "performance", "observability"]

/-- Line 78: `policy["type"] not in valid_types`, negated. -/
def typeOk : Yaml → Bool
  | .str s => validTypes.contains s
  | _ => false

/-- Lines 61-81: `validate_policy_content` — empty check (early return),
mapping check (early return), then the optional `type` enumeration. All
operations here are total, so no `Except` is needed. -/
def validate_policy_content (policy : Yaml) (filename : String) : List String :=
  if policy.isFalsy then [mkErr filename emptyBody]
  else
    match policy with
    | .map kvs =>
        match mapLookupStr kvs "type" with
        | none => []
        | some v => if typeOk v then [] else [mkErr filename (invalidTypeBody v)]
    | _ => [mkErr filename notObjBody]

/-- Lines 91-98 (plus the line 107 handler) of `lint_policy_file`, from the
point where `yaml.safe_load` returned `policy`: the `policy is None`
short-circuit, then structure and content validation concatenated;
an exception raised inside `validate_policy_structure` is caught by
`except Exception` and becomes the single `Unexpected error` entry. -/
def lint_decoded (policy : Yaml) (filepath : String) : List String :=
  match policy with
  | .null => [mkErr filepath emptyInvalidBody]
  | _ =>
      match validate_policy_structure policy filepath with
      | .ok es => es ++ validate_policy_content policy filepath
      | .error _ => [mkErr filepath unexpectedBody]

/-- The line-24 test `key not in policy`, as a total function (false when
the membership test would raise — that case never reaches the append). -/
def keyMissing (policy : Yaml) (k : String) : Bool :=
  match pyContains policy k with
  | .ok b => !b
  | .error _ => false

/-- The ordered list of missing-required-key messages. -/
def missingKeyErrs (policy : Yaml) (fn : String) : List String :=
  (requiredKeys.filter (keyMissing policy)).map (fun k => mkErr fn (missingKeyBody k))

/-- The per-rule violation count named by the specification: for a mapping
rule, one violation for each of missing `id`, missing `description`, and
missing-or-invalid `severity`; exactly one violation for a rule that is not
a mapping. (Stated from the specification, to be compared with
`ruleErrors`.) -/
def claimedRuleViolations : Yaml → Nat
  | .map rkvs =>
      (if (mapLookupStr rkvs "id").isSome then 0 else 1) +
      ((if (mapLookupStr rkvs "description").isSome then 0 else 1) +
        (match mapLookupStr rkvs "severity" with
        | none => 1
        | some v => if severityOk v then 0 else 1))
  | _ => 1

/-- The minimal valid policy document of scenario 1 in the specification:
`{name: "p1", version: "1.0", rules: [{id: "r1", description: "d",
severity: "high"}]}`. -/
def minimalPolicy : Yaml :=
  Yaml.map [(Yaml.str "name", Yaml.str "p1"), (Yaml.str "version", Yaml.str "1.0"),
    (Yaml.str "rules", Yaml.seq [Yaml.map [(Yaml.str "id", Yaml.str "r1"),
      (Yaml.str "description", Yaml.str "d"), (Yaml.str "severity", Yaml.str "high")]])]

/-- The scenario-4 style document used as a concrete instance: string name,
string version, empty rules list, unknown `type`. -/
def unknownTypePolicy : Yaml :=
  Yaml.map [(Yaml.str "name", Yaml.str "p"), (Yaml.str "version", Yaml.str "1"),
    (Yaml.str "rules", Yaml.seq []), (Yaml.str "type", Yaml.str "unknown")]

/-! Reduction lemmas for the `Except Unit` monad used by the embedding. -/

@[simp]
theorem okBind {α β : Type} (x : α) (f : α → Except Unit β) :
    (Except.ok x >>= f) = f x := rfl

@[simp]
theorem errBind {α β : Type} (u : Unit) (f : α → Except Unit β) :
    ((Except.error u : Except Unit α) >>= f) = Except.error u := rfl

@[simp]
theorem pureOk {α : Type} (x : α) : (pure x : Except Unit α) = Except.ok x := rfl

/-! String facts used to tell the different error messages apart. -/

theorem strAppendLeftCancel {p a b : String} (h : p ++ a = p ++ b) : a = b := by
  apply String.ext
  have h2 := congrArg String.data h
  rw [String.data_append, String.data_append] at h2
  exact List.append_cancel_left h2

theorem strAppendRightCancel {a b s : String} (h : a ++ s = b ++ s) : a = b := by
  apply String.ext
  have h2 := congrArg String.data h
  rw [String.data_append, String.data_append] at h2
  exact List.append_cancel_right h2

theorem mkErr_inj {fn a b : String} (h : mkErr fn a = mkErr fn b) : a = b :=
  strAppendLeftCancel (p := fn ++ ": ") h

theorem mkErr_ne {a b : String} (fn : String) (h : a ≠ b) :
    mkErr fn a ≠ mkErr fn b :=
  fun he => h (mkErr_inj he)

theorem strNeOfHeads {a b : String} {c d : Char} (ha : ∃ cs, a.data = c :: cs)
    (hb : ∃ ds, b.data = d :: ds) (hcd : c ≠ d) : a ≠ b := by
  obtain ⟨cs, ha⟩ := ha
  obtain ⟨ds, hb⟩ := hb
  intro he
  rw [he] at ha
  exact hcd (List.cons.inj (ha.symm.trans hb)).1

theorem headLitAppend {p : String} (x : String) {c : Char} {cs : List Char}
    (hp : p.data = c :: cs) : ∃ ds, (p ++ x).data = c :: ds :=
  ⟨cs ++ x.data, by rw [String.data_append, hp]; rfl⟩

theorem missingKeyBody_head (k : String) :
    ∃ ds, (missingKeyBody k).data = 'M' :: ds :=
  headLitAppend (p := "Missing required key ") (sq ++ (k ++ sq)) rfl

theorem ruleBody_head (i : Nat) (rest : String) :
    ∃ ds, (ruleBody i rest).data = 'R' :: ds :=
  headLitAppend (p := "Rule ") (toString i ++ (" " ++ rest)) rfl

theorem nameStrBody_head : ∃ ds, nameStrBody.data = '\x27' :: ds :=
  ⟨"name\x27 must be a string".data, rfl⟩

theorem versionStrBody_head : ∃ ds, versionStrBody.data = '\x27' :: ds :=
  ⟨"version\x27 must be a string".data, rfl⟩

theorem rulesListBody_head : ∃ ds, rulesListBody.data = '\x27' :: ds :=
  ⟨"rules\x27 must be a list".data, rfl⟩

/-- A missing-required-key message never coincides with the line-29 /
line-33 / line-38 type messages (their bodies start with a quote, not
with `M`). -/
theorem missingKey_ne_quoteBody {b : String} (fn k : String)
    (hb : ∃ ds, b.data = '\x27' :: ds) :
    mkErr fn (missingKeyBody k) ≠ mkErr fn b :=
  mkErr_ne fn (strNeOfHeads (missingKeyBody_head k) hb (by decide))

/-- A missing-required-key message never coincides with a per-rule message
(whose body starts with `R`). -/
theorem missingKey_ne_ruleBody (fn k : String) (i : Nat) (rest : String) :
    mkErr fn (missingKeyBody k) ≠ mkErr fn (ruleBody i rest) :=
  mkErr_ne fn (strNeOfHeads (missingKeyBody_head k) (ruleBody_head i rest) (by decide))

/-! Characterization of each block of `validate_policy_structure`. -/

theorem reqKeyErrors_ok {policy : Yaml} {fn : String} {e : List String}
    (h : reqKeyErrors policy fn = .ok e) : e = missingKeyErrs policy fn := by
  cases policy with
  | null => exact Except.noConfusion h
  | bool b => exact Except.noConfusion h
  | int n => exact Except.noConfusion h
  | str s =>
      simp only [reqKeyErrors, pyContains, okBind, pureOk] at h
      injection h with h
      subst h
      simp only [missingKeyErrs, requiredKeys]
      split <;> split <;> split <;> simp_all [List.filter, keyMissing, pyContains]
  | seq xs =>
      simp only [reqKeyErrors, pyContains, okBind, pureOk] at h
      injection h with h
      subst h
      cases h1 : xs.any (fun x => strKeyEq x "name") <;>
        cases h2 : xs.any (fun x => strKeyEq x "version") <;>
          cases h3 : xs.any (fun x => strKeyEq x "rules") <;>
            simp only [missingKeyErrs, requiredKeys, List.filter, keyMissing,
              pyContains, h1, h2, h3] <;>
              simp
  | map kvs =>
      simp only [reqKeyErrors, pyContains, okBind, pureOk] at h
      injection h with h
      subst h
      simp only [missingKeyErrs, requiredKeys]
      split <;> split <;> split <;> simp_all [List.filter, keyMissing, pyContains]

theorem missingKeyBody_inj {a b : String} (h : missingKeyBody a = missingKeyBody b) :
    a = b := by
  have h1 := strAppendLeftCancel (p := "Missing required key ") h
  have h2 := strAppendLeftCancel (p := sq) h1
  exact strAppendRightCancel h2

theorem missingKeyErrs_nodup (policy : Yaml) (fn : String) :
    (missingKeyErrs policy fn).Nodup := by
  apply List.Nodup.map
  · intro a b hab
    exact missingKeyBody_inj (mkErr_inj hab)
  · exact List.Nodup.filter _ (by decide)

theorem nameErrors_ok {policy : Yaml} {fn : String} {e : List String}
    (h : nameErrors policy fn = .ok e) : e = [] ∨ e = [mkErr fn nameStrBody] := by
  cases policy with
  | null => exact Except.noConfusion h
  | bool b => exact Except.noConfusion h
  | int n => exact Except.noConfusion h
  | str s =>
      simp only [nameErrors, pyContains, okBind, pureOk] at h
      cases hb : pySubstr "name" s <;> simp [hb, pyGetItem] at h
      exact Or.inl h
  | seq xs =>
      simp only [nameErrors, pyContains, okBind, pureOk] at h
      cases hb : xs.any (fun x => strKeyEq x "name") <;> simp [hb, pyGetItem] at h
      exact Or.inl h
  | map kvs =>
      simp only [nameErrors, pyContains, okBind, pureOk] at h
      cases hl : mapLookupStr kvs "name" with
      | none => simp [hl] at h; exact Or.inl h
      | some v =>
          simp only [hl, Option.isSome_some, if_pos, pyGetItem, okBind] at h
          cases hs : v.isStr <;> simp [hs] at h
          · exact Or.inr h.symm
          · exact Or.inl h

theorem versionErrors_ok {policy : Yaml} {fn : String} {e : List String}
    (h : versionErrors policy fn = .ok e) : e = [] ∨ e = [mkErr fn versionStrBody] := by
  cases policy with
  | null => exact Except.noConfusion h
  | bool b => exact Except.noConfusion h
  | int n => exact Except.noConfusion h
  | str s =>
      simp only [versionErrors, pyContains, okBind, pureOk] at h
      cases hb : pySubstr "version" s <;> simp [hb, pyGetItem] at h
      exact Or.inl h
  | seq xs =>
      simp only [versionErrors, pyContains, okBind, pureOk] at h
      cases hb : xs.any (fun x => strKeyEq x "version") <;> simp [hb, pyGetItem] at h
      exact Or.inl h
  | map kvs =>
      simp only [versionErrors, pyContains, okBind, pureOk] at h
      cases hl : mapLookupStr kvs "version" with
      | none => simp [hl] at h; exact Or.inl h
      | some v =>
          simp only [hl, Option.isSome_some, if_pos, pyGetItem, okBind] at h
          cases hs : v.isStr <;> simp [hs] at h
          · exact Or.inr h.symm
          · exact Or.inl h

theorem rulesErrors_ok {policy : Yaml} {fn : String} {e : List String}
    (h : rulesErrors policy fn = .ok e) :
    e = [] ∨ e = [mkErr fn rulesListBody] ∨ ∃ rs, e = rulesListErrors fn 0 rs := by
  cases policy with
  | null => exact Except.noConfusion h
  | bool b => exact Except.noConfusion h
  | int n => exact Except.noConfusion h
  | str s =>
      simp only [rulesErrors, pyContains, okBind, pureOk] at h
      cases hb : pySubstr "rules" s <;> simp [hb, pyGetItem] at h
      exact Or.inl h
  | seq xs =>
      simp only [rulesErrors, pyContains, okBind, pureOk] at h
      cases hb : xs.any (fun x => strKeyEq x "rules") <;> simp [hb, pyGetItem] at h
      exact Or.inl h
  | map kvs =>
      simp only [rulesErrors, pyContains, okBind, pureOk] at h
      cases hl : mapLookupStr kvs "rules" with
      | none => simp [hl] at h; exact Or.inl h
      | some rv =>
          simp only [hl, Option.isSome_some, if_pos, pyGetItem, okBind] at h
          cases rv <;> simp at h <;>
            first
            | exact Or.inr (Or.inr ⟨_, h.symm⟩)
            | exact Or.inr (Or.inl h.symm)

theorem validate_structure_ok {policy : Yaml} {fn : String} {es : List String}
    (h : validate_policy_structure policy fn = .ok es) :
    ∃ e1 e2 e3 e4, reqKeyErrors policy fn = .ok e1 ∧ nameErrors policy fn = .ok e2 ∧
      versionErrors policy fn = .ok e3 ∧ rulesErrors policy fn = .ok e4 ∧
      es = e1 ++ (e2 ++ (e3 ++ e4)) := by
  simp only [validate_policy_structure] at h
  cases hq : reqKeyErrors policy fn with
  | error u => rw [hq] at h; simp only [errBind] at h; exact Except.noConfusion h
  | ok e1 =>
      rw [hq] at h; simp only [okBind] at h
      cases hn : nameErrors policy fn with
      | error u => rw [hn] at h; simp only [errBind] at h; exact Except.noConfusion h
      | ok e2 =>
          rw [hn] at h; simp only [okBind] at h
          cases hv : versionErrors policy fn with
          | error u => rw [hv] at h; simp only [errBind] at h; exact Except.noConfusion h
          | ok e3 =>
              rw [hv] at h; simp only [okBind] at h
              cases hr : rulesErrors policy fn with
              | error u => rw [hr] at h; simp only [errBind] at h; exact Except.noConfusion h
              | ok e4 =>
                  rw [hr] at h; simp only [okBind, pureOk] at h
                  injection h with h
                  exact ⟨e1, e2, e3, e4, rfl, rfl, rfl, rfl, h.symm⟩

theorem mem_ruleErrors {fn : String} {i : Nat} {rule : Yaml} {e : String}
    (h : e ∈ ruleErrors fn i rule) : ∃ b, e = mkErr fn (ruleBody i b) := by
  cases rule with
  | map rkvs =>
      simp only [ruleErrors, List.mem_append] at h
      rcases h with h | h | h
      · split at h <;> simp at h
        exact ⟨_, h⟩
      · split at h <;> simp at h
        exact ⟨_, h⟩
      · split at h
        · simp at h
          exact ⟨_, h⟩
        · split at h <;> simp at h
          exact ⟨_, h⟩
  | null => simp only [ruleErrors] at h; simp at h; exact ⟨_, h⟩
  | bool b => simp only [ruleErrors] at h; simp at h; exact ⟨_, h⟩
  | int n => simp only [ruleErrors] at h; simp at h; exact ⟨_, h⟩
  | str s => simp only [ruleErrors] at h; simp at h; exact ⟨_, h⟩
  | seq xs => simp only [ruleErrors] at h; simp at h; exact ⟨_, h⟩

theorem mem_rulesListErrors {fn : String} {rs : List Yaml} {i : Nat} {e : String}
    (h : e ∈ rulesListErrors fn i rs) : ∃ j b, e = mkErr fn (ruleBody j b) := by
  induction rs generalizing i with
  | nil => simp [rulesListErrors] at h
  | cons r rest ih =>
      simp only [rulesListErrors, List.mem_append] at h
      rcases h with h | h
      · obtain ⟨b, hb⟩ := mem_ruleErrors h
        exact ⟨i, b, hb⟩
      · exact ih h

theorem missingKey_notin_rulesList {fn k : String} {i : Nat} {rs : List Yaml} :
    mkErr fn (missingKeyBody k) ∉ rulesListErrors fn i rs := by
  intro hmem
  obtain ⟨j, b, hb⟩ := mem_rulesListErrors hmem
  exact missingKey_ne_ruleBody fn k j b hb

theorem ruleBody_inj {i : Nat} {a b : String} (h : ruleBody i a = ruleBody i b) :
    a = b := by
  have h1 := strAppendLeftCancel (p := "Rule ") h
  have h2 := strAppendLeftCancel (p := toString i) h1
  exact strAppendLeftCancel (p := " ") h2

theorem invalidSev_ne_missing (fn : String) (i : Nat) (v : Yaml) (f : String) :
    mkErr fn (ruleInvalidSevBody i v) ≠ mkErr fn (ruleMissingBody i f) := by
  apply mkErr_ne
  intro h
  exact strNeOfHeads
    (headLitAppend (sq ++ (pyStr v ++ sq))
      (show "invalid severity ".data = 'i' :: "nvalid severity ".data from rfl))
    (headLitAppend (sq ++ (f ++ (sq ++ " field")))
      (show "missing ".data = 'm' :: "issing ".data from rfl))
    (by decide) (ruleBody_inj h)

theorem missingSev_ne_missingId (fn : String) (i : Nat) :
    mkErr fn (ruleMissingBody i "severity") ≠ mkErr fn (ruleMissingBody i "id") := by
  apply mkErr_ne
  intro h
  have h2 := strAppendLeftCancel (p := sq)
    (strAppendLeftCancel (p := "missing ") (ruleBody_inj h))
  exact strNeOfHeads
    (headLitAppend (sq ++ " field") (show "severity".data = 's' :: "everity".data from rfl))
    (headLitAppend (sq ++ " field") (show "id".data = 'i' :: "d".data from rfl))
    (by decide) h2

theorem missingSev_ne_missingDesc (fn : String) (i : Nat) :
    mkErr fn (ruleMissingBody i "severity") ≠ mkErr fn (ruleMissingBody i "description") := by
  apply mkErr_ne
  intro h
  have h2 := strAppendLeftCancel (p := sq)
    (strAppendLeftCancel (p := "missing ") (ruleBody_inj h))
  exact strNeOfHeads
    (headLitAppend (sq ++ " field") (show "severity".data = 's' :: "everity".data from rfl))
    (headLitAppend (sq ++ " field") (show "description".data = 'd' :: "escription".data from rfl))
    (by decide) h2

theorem nameErrors_map_isOk (kvs : List (Yaml × Yaml)) (fn : String) :
    ∃ e, nameErrors (Yaml.map kvs) fn = .ok e := by
  cases hl : mapLookupStr kvs "name" with
  | none => exact ⟨[], by simp [nameErrors, pyContains, hl]⟩
  | some v =>
      refine ⟨if v.isStr then [] else [mkErr fn nameStrBody], ?_⟩
      simp [nameErrors, pyContains, pyGetItem, hl]

theorem versionErrors_map_isOk (kvs : List (Yaml × Yaml)) (fn : String) :
    ∃ e, versionErrors (Yaml.map kvs) fn = .ok e := by
  cases hl : mapLookupStr kvs "version" with
  | none => exact ⟨[], by simp [versionErrors, pyContains, hl]⟩
  | some v =>
      refine ⟨if v.isStr then [] else [mkErr fn versionStrBody], ?_⟩
      simp [versionErrors, pyContains, pyGetItem, hl]

theorem rulesErrors_map_isOk (kvs : List (Yaml × Yaml)) (fn : String) :
    ∃ e, rulesErrors (Yaml.map kvs) fn = .ok e := by
  cases hl : mapLookupStr kvs "rules" with
  | none => exact ⟨[], by simp [rulesErrors, pyContains, hl]⟩
  | some rv =>
      cases rv with
      | seq rules =>
          exact ⟨rulesListErrors fn 0 rules, by simp [rulesErrors, pyContains, pyGetItem, hl]⟩
      | null =>
          exact ⟨[mkErr fn rulesListBody], by simp [rulesErrors, pyContains, pyGetItem, hl]⟩
      | bool b =>
          exact ⟨[mkErr fn rulesListBody], by simp [rulesErrors, pyContains, pyGetItem, hl]⟩
      | int n =>
          exact ⟨[mkErr fn rulesListBody], by simp [rulesErrors, pyContains, pyGetItem, hl]⟩
      | str s =>
          exact ⟨[mkErr fn rulesListBody], by simp [rulesErrors, pyContains, pyGetItem, hl]⟩
      | map kvs2 =>
          exact ⟨[mkErr fn rulesListBody], by simp [rulesErrors, pyContains, pyGetItem, hl]⟩

theorem ruleErrors_length (fn : String) (i : Nat) (rule : Yaml) :
    (ruleErrors fn i rule).length = claimedRuleViolations rule := by
  cases rule with
  | map rkvs =>
      simp only [ruleErrors, claimedRuleViolations]
      split <;> split <;> split <;> (try split) <;> simp_arith
  | null => rfl
  | bool b => rfl
  | int n => rfl
  | str s => rfl
  | seq xs => rfl

theorem rulesListErrors_length (fn : String) (i : Nat) (rs : List Yaml) :
    (rulesListErrors fn i rs).length = (rs.map claimedRuleViolations).sum := by
  induction rs generalizing i with
  | nil => rfl
  | cons r rest ih => simp [rulesListErrors, ruleErrors_length, ih]

theorem claimedRuleViolations_le_three (r : Yaml) : claimedRuleViolations r ≤ 3 := by
  cases r with
  | map rkvs =>
      simp only [claimedRuleViolations]
      split <;> split <;> split <;> (try split) <;> simp_arith
  | null => decide
  | bool b => simp [claimedRuleViolations]
  | int n => simp [claimedRuleViolations]
  | str s => simp [claimedRuleViolations]
  | seq xs => simp [claimedRuleViolations]

/-- C1, counterexample: on the null document, `validate_policy_structure`
does not return an error list — the very first required-key membership test
`"name" in policy` raises a `TypeError` (modelled as `Except.error`). -/
theorem structure_raises_on_null_counterexample :
    validate_policy_structure Yaml.null "policy.yaml" = Except.error () := rfl

/-- C1, amended: for every mapping document and every filename,
`validate_policy_structure` returns an error list without raising, and all
failure is reported through that list; for a null (or numeric or boolean)
document the membership test raises instead of returning. -/
theorem structure_total_on_mappings (kvs : List (Yaml × Yaml)) (fn : String) :
    (validate_policy_structure (Yaml.map kvs) fn).isOk = true ∧
    (validate_policy_structure Yaml.null fn).isOk = false := by
  constructor
  · obtain ⟨e2, h2⟩ := nameErrors_map_isOk kvs fn
    obtain ⟨e3, h3⟩ := versionErrors_map_isOk kvs fn
    obtain ⟨e4, h4⟩ := rulesErrors_map_isOk kvs fn
    have h1 : reqKeyErrors (Yaml.map kvs) fn =
        .ok ((if (mapLookupStr kvs "name").isSome then []
            else [mkErr fn (missingKeyBody "name")]) ++
          ((if (mapLookupStr kvs "version").isSome then []
            else [mkErr fn (missingKeyBody "version")]) ++
            (if (mapLookupStr kvs "rules").isSome then []
            else [mkErr fn (missingKeyBody "rules")]))) := rfl
    simp [validate_policy_structure, h1, h2, h3, h4, Except.isOk, Except.toBool]
  · rfl

/-- C2, counterexample: a file decoding to the empty mapping does not
short-circuit to the single `Empty or invalid YAML file` entry — both
validators still run (four errors result). -/
theorem empty_mapping_no_shortcircuit_counterexample :
    lint_decoded (Yaml.map []) "p.yaml" ≠ ["p.yaml: Empty or invalid YAML file"] := by
  decide

/-- C2, amended: in `lint_policy_file`, only a document decoded as Python
`None` short-circuits to the single `Empty or invalid YAML file` error with
validation skipped; an empty-mapping or empty-string document instead runs
structural and content validation and accumulates their errors. -/
theorem null_shortcircuits_validation (fp : String) :
    lint_decoded Yaml.null fp = [mkErr fp emptyInvalidBody] ∧
    lint_decoded (Yaml.map []) fp =
      [mkErr fp (missingKeyBody "name"), mkErr fp (missingKeyBody "version"),
        mkErr fp (missingKeyBody "rules"), mkErr fp emptyBody] ∧
    lint_decoded (Yaml.str "") fp =
      [mkErr fp (missingKeyBody "name"), mkErr fp (missingKeyBody "version"),
        mkErr fp (missingKeyBody "rules"), mkErr fp emptyBody] :=
  ⟨rfl, rfl, rfl⟩

/-- C3: whenever `validate_policy_structure` returns an error list, that
list starts with exactly one `Missing required key` message per missing
required key, in the fixed order name, version, rules (`missingKeyErrs`,
which has no duplicates), and no such message occurs anywhere later in the
list. -/
theorem missing_key_errors_exact_and_ordered (policy : Yaml) (fn : String)
    (es : List String) (h : validate_policy_structure policy fn = .ok es) :
    ∃ rest, es = missingKeyErrs policy fn ++ rest ∧
      (missingKeyErrs policy fn).Nodup ∧
      ∀ k ∈ requiredKeys, mkErr fn (missingKeyBody k) ∉ rest := by
  obtain ⟨e1, e2, e3, e4, hq, hn, hv, hr, hes⟩ := validate_structure_ok h
  refine ⟨e2 ++ (e3 ++ e4), ?_, missingKeyErrs_nodup policy fn, ?_⟩
  · rw [hes, reqKeyErrors_ok hq]
  · intro k hk hmem
    rcases List.mem_append.mp hmem with hm | hmem2
    · rcases nameErrors_ok hn with h2 | h2 <;> subst h2 <;> simp at hm
      exact missingKey_ne_quoteBody fn k nameStrBody_head hm
    · rcases List.mem_append.mp hmem2 with hm | hm
      · rcases versionErrors_ok hv with h3 | h3 <;> subst h3 <;> simp at hm
        exact missingKey_ne_quoteBody fn k versionStrBody_head hm
      · rcases rulesErrors_ok hr with h4 | h4 | ⟨rs, h4⟩ <;> subst h4
        · simp at hm
        · simp at hm
          exact missingKey_ne_quoteBody fn k rulesListBody_head hm
        · exact missingKey_notin_rulesList hm

/-- C3 witness: the empty mapping with filename `p.yaml`, whose error list
is exactly the three missing-key messages. -/
theorem missing_key_errors_witness :
    ∃ rest,
      [mkErr "p.yaml" (missingKeyBody "name"), mkErr "p.yaml" (missingKeyBody "version"),
        mkErr "p.yaml" (missingKeyBody "rules")] =
        missingKeyErrs (Yaml.map []) "p.yaml" ++ rest ∧
      (missingKeyErrs (Yaml.map []) "p.yaml").Nodup ∧
      ∀ k ∈ requiredKeys, mkErr "p.yaml" (missingKeyBody k) ∉ rest :=
  missing_key_errors_exact_and_ordered (Yaml.map []) "p.yaml" _ rfl

/-- C4: for the empty-mapping document, structural validation reports the
three missing-required-key errors, content validation reports the single
`Policy file is empty` error, and the concatenation performed by the orchestration
(structural first) is exactly these four errors. -/
theorem empty_mapping_four_errors (fn : String) :
    validate_policy_structure (Yaml.map []) fn =
      .ok [mkErr fn (missingKeyBody "name"), mkErr fn (missingKeyBody "version"),
        mkErr fn (missingKeyBody "rules")] ∧
    validate_policy_content (Yaml.map []) fn = [mkErr fn emptyBody] ∧
    lint_decoded (Yaml.map []) fn =
      [mkErr fn (missingKeyBody "name"), mkErr fn (missingKeyBody "version"),
        mkErr fn (missingKeyBody "rules"), mkErr fn emptyBody] :=
  ⟨rfl, rfl, rfl⟩

/-- C5: for a rule that is a mapping, the `missing severity` error and the
`invalid severity` error for the same index never both occur in the error
list of the rule (the product of their occurrence counts is zero). -/
theorem severity_errors_exclusive (fn : String) (i : Nat)
    (rkvs : List (Yaml × Yaml)) (v : Yaml) :
    (ruleErrors fn i (Yaml.map rkvs)).count (mkErr fn (ruleMissingBody i "severity")) *
      (ruleErrors fn i (Yaml.map rkvs)).count (mkErr fn (ruleInvalidSevBody i v)) = 0 := by
  cases hl : mapLookupStr rkvs "severity" with
  | none =>
      apply Nat.mul_eq_zero.mpr
      right
      apply List.count_eq_zero.mpr
      intro hm
      simp only [ruleErrors, hl, List.mem_append] at hm
      rcases hm with hm | hm | hm
      · split at hm
        · simp at hm
        · simp at hm
          exact invalidSev_ne_missing fn i v "id" hm
      · split at hm
        · simp at hm
        · simp at hm
          exact invalidSev_ne_missing fn i v "description" hm
      · simp at hm
        exact invalidSev_ne_missing fn i v "severity" hm
  | some w =>
      apply Nat.mul_eq_zero.mpr
      left
      apply List.count_eq_zero.mpr
      intro hm
      simp only [ruleErrors, hl, List.mem_append] at hm
      rcases hm with hm | hm | hm
      · split at hm
        · simp at hm
        · simp at hm
          exact missingSev_ne_missingId fn i hm
      · split at hm
        · simp at hm
        · simp at hm
          exact missingSev_ne_missingDesc fn i hm
      · split at hm
        · simp at hm
        · simp at hm
          exact invalidSev_ne_missing fn i w "severity" hm.symm

/-- C6: the per-rule structural error count is the sum, over the rules of
the `rules` sequence, of the individual violation count of each rule; each count
is at most 3, and a rule that is not a mapping contributes exactly the one
`must be a dictionary` error with all other per-rule checks skipped. -/
theorem per_rule_error_count (fn : String) (i : Nat) (rs : List Yaml) :
    (rulesListErrors fn i rs).length = (rs.map claimedRuleViolations).sum ∧
    (∀ r ∈ rs, claimedRuleViolations r ≤ 3) ∧
    (∀ (j : Nat) (r : Yaml), r.isMap = false →
      ruleErrors fn j r = [mkErr fn (ruleDictBody j)]) := by
  refine ⟨rulesListErrors_length fn i rs, fun r _ => claimedRuleViolations_le_three r, ?_⟩
  intro j r hr
  cases r <;> simp [Yaml.isMap] at hr ⊢ <;> rfl

/-- C6 witness: a two-element rules list (one malformed mapping, one
non-mapping) at index 0 with filename `p.yaml`. -/
theorem per_rule_error_count_witness :
    (rulesListErrors "p.yaml" 0 [Yaml.map [], Yaml.str "x"]).length =
      ([Yaml.map [], Yaml.str "x"].map claimedRuleViolations).sum ∧
    (∀ r ∈ [Yaml.map [], Yaml.str "x"], claimedRuleViolations r ≤ 3) ∧
    (∀ (j : Nat) (r : Yaml), r.isMap = false →
      ruleErrors "p.yaml" j r = [mkErr "p.yaml" (ruleDictBody j)]) :=
  per_rule_error_count "p.yaml" 0 [Yaml.map [], Yaml.str "x"]

/-- C7: a mapping document with a string name, a string version, an empty
rules list and a `type` value outside the valid set yields exactly one
error from structure-plus-content validation, the invalid-type message; and
every non-empty non-mapping document short-circuits content validation to
the single `Policy must be a YAML object` error. -/
theorem invalid_type_single_error (fn a b : String) (kvs : List (Yaml × Yaml)) (v : Yaml)
    (hn : mapLookupStr kvs "name" = some (Yaml.str a))
    (hv : mapLookupStr kvs "version" = some (Yaml.str b))
    (hr : mapLookupStr kvs "rules" = some (Yaml.seq []))
    (ht : mapLookupStr kvs "type" = some v)
    (hbad : typeOk v = false) :
    validate_policy_structure (Yaml.map kvs) fn = .ok [] ∧
    validate_policy_content (Yaml.map kvs) fn = [mkErr fn (invalidTypeBody v)] ∧
    (∀ d : Yaml, d.isFalsy = false → d.isMap = false →
      validate_policy_content d fn = [mkErr fn notObjBody]) := by
  have hne : kvs.isEmpty = false := by
    cases kvs
    · simp [mapLookupStr] at hn
    · rfl
  refine ⟨?_, ?_, ?_⟩
  · simp [validate_policy_structure, reqKeyErrors, nameErrors, versionErrors, rulesErrors,
      pyContains, pyGetItem, hn, hv, hr, Yaml.isStr, rulesListErrors]
  · simp [validate_policy_content, Yaml.isFalsy, hne, ht, hbad]
  · intro d h1 h2
    cases d <;> simp_all [validate_policy_content, Yaml.isFalsy, Yaml.isMap]

/-- C7 witness: the scenario-4 document with filename `p.yaml` and type
value `unknown`. -/
theorem invalid_type_single_error_witness :
    validate_policy_structure unknownTypePolicy "p.yaml" = .ok [] ∧
    validate_policy_content unknownTypePolicy "p.yaml" =
      [mkErr "p.yaml" (invalidTypeBody (Yaml.str "unknown"))] ∧
    (∀ d : Yaml, d.isFalsy = false → d.isMap = false →
      validate_policy_content d "p.yaml" = [mkErr "p.yaml" notObjBody]) :=
  invalid_type_single_error "p.yaml" "p" "1"
    [(Yaml.str "name", Yaml.str "p"), (Yaml.str "version", Yaml.str "1"),
      (Yaml.str "rules", Yaml.seq []), (Yaml.str "type", Yaml.str "unknown")]
    (Yaml.str "unknown") rfl rfl rfl rfl rfl

/-- C8: the minimal valid policy document yields zero errors from both
structural and content validation. -/
theorem minimal_policy_zero_errors (fn : String) :
    validate_policy_structure minimalPolicy fn = .ok [] ∧
    validate_policy_content minimalPolicy fn = [] := ⟨rfl, rfl⟩

/-- C9: validation is a pure, deterministic function of document and
filename: validating the same document with the same filename twice yields
identical error sequences from both validators (each embedded validator is
a function of exactly these two arguments, so there is no hidden state to
vary between runs). -/
theorem validation_deterministic (policy : Yaml) (fn : String) :
    validate_policy_structure policy fn = validate_policy_structure policy fn ∧
    validate_policy_content policy fn = validate_policy_content policy fn := ⟨rfl, rfl⟩

/-- C10: for every document and filename, `validate_policy_content` returns
at most one error. -/
theorem content_at_most_one_error (policy : Yaml) (fn : String) :
    (validate_policy_content policy fn).length ≤ 1 := by
  simp only [validate_policy_content]
  split
  · simp
  · split
    · split
      · simp
      · split <;> simp
    · simp

end PolicyLint
